import Mathlib

/-!
Verification of the content-based recommender in `backend/recommender.py`
(class `Recommender`: `recommend_by_id`, `recommend_by_cart`,
`recommend_by_search`) against its natural-language design document.

Shallow embedding conventions:
* A catalog row of `self.df` is a `Product`; the row order of the dataframe
  is the order of `Recommender.products`.
* `self.tfidf_matrix` is `Recommender.vecs`, one dense rational vector per
  row.  scikit-learn's `TfidfVectorizer` (library code, not part of the
  repository) L2-normalizes every row, so each stored vector is unit-norm
  or the zero vector; theorems that need this take it as a hypothesis.
* Because stored vectors are unit-or-zero, sklearn's
  `cosine_similarity(a, b) = a·b / (‖a‖‖b‖)` equals the plain dot product
  whenever both arguments are unit-or-zero, and for a single non-normalized
  query vector (the cart mean) it equals the dot product divided by the
  constant `‖a‖ > 0`, a positive rescaling of the whole score row that
  changes no comparison between scores.  Similarity is therefore embedded
  as the dot product (`sim`), which is exact for product/query rows and
  order-and-tie preserving for the cart mean row.
* Python's `sorted(..., key=score, reverse=True)` is a stable descending
  sort: embedded as an insertion sort on indices ordered by
  (score descending, index ascending).  NumPy's `argsort` is embedded as
  the stable ascending sort (ties by ascending index); NumPy's default
  quicksort coincides with this on the small arrays used here.
* Python slices with possibly negative bounds (`scores[1:n+1]`, `[:n]`)
  are embedded with Python's negative-index semantics.
* The three query methods return normally on every path of the source;
  results are wrapped in `Except RecError` so that the design document's
  error taxonomy (NotFound / EmptyInput) is statable: `Except.ok` is a
  normal return, `Except.error` would be a raised error.
-/

deriving instance DecidableEq for Except

namespace ShopSmart

/-- A row of `self.df`: the CSV fields used by the recommender
(`product_id`, `name`, `category`, `description`) plus the passthrough
fields preserved in output. -/
structure Product where
  product_id : Int
  name : String
  category : String
  description : String
  price : ℚ
  image_url : String
  rating : ℚ
deriving DecidableEq, Inhabited, Repr

/-- Error taxonomy of the design document (§7).  The source never raises
these; `Except` makes the error claims statable. -/
inductive RecError where
  | notFound
  | emptyInput
deriving DecidableEq, Repr

/-- State of a fitted `Recommender`.  `products` is `self.df` (row order),
`vecs` the rows of `self.tfidf_matrix`, `dim` the vocabulary size, and
`transform` is the fitted vectorizer's `transform` on one query string.
`transform` is modelled from the spec: `TfidfVectorizer.transform` is
library code not in the repository; the properties used (zero vector on
text with no retained terms, L2 unit norm otherwise) are §4.1 of the
design document and appear as hypotheses where needed. -/
structure Recommender where
  products : List Product
  vecs : List (List ℚ)
  dim : Nat
  transform : String → List ℚ

/-- The `product_id` column, `self.df['product_id'].values`. -/
def ids (r : Recommender) : List Int :=
  r.products.map (fun p => p.product_id)

/-- Row `i` of the TF-IDF matrix. -/
def vecAt (r : Recommender) (i : Nat) : List ℚ :=
  r.vecs.getD i []

/-- Dot product of two dense vectors. -/
def dotQ (a b : List ℚ) : ℚ :=
  (List.zipWith (fun x y => x * y) a b).sum

/-- Squared Euclidean norm. -/
def normSq (a : List ℚ) : ℚ :=
  dotQ a a

/-- Modelled from the spec: cosine similarity (§4.2, sklearn
`cosine_similarity`, library code not in the repository).  On
unit-or-zero vectors cosine equals the dot product, and the zero-vector
guard (`similarity = 0` when either input is zero) holds definitionally
because every term of the dot product vanishes; for a non-normalized
query vector the dot product is the cosine scaled by the constant
positive factor `‖query‖`, preserving every comparison and tie between
scores of one query. -/
def sim (a b : List ℚ) : ℚ :=
  dotQ a b

/-- One row of similarity scores of query vector `q` against every
catalog row (`cosine_similarity(q, self.tfidf_matrix).flatten()`, and a
row `self.cosine_sim[idx]` when `q` is a catalog row). -/
def simsTo (r : Recommender) (q : List ℚ) : List ℚ :=
  r.vecs.map (fun v => sim q v)

/-- Insert `x` into `l` before the first element `y` with `¬ le x y`
refuted, i.e. keep going while `le x y` fails: standard insertion step. -/
def insertLe (le : Nat → Nat → Bool) (x : Nat) : List Nat → List Nat
  | [] => [x]
  | y :: ys => if le x y then x :: y :: ys else y :: insertLe le x ys

/-- Insertion sort by the boolean relation `le`. -/
def sortLe (le : Nat → Nat → Bool) : List Nat → List Nat
  | [] => []
  | x :: xs => insertLe le x (sortLe le xs)

/-- Index order used by Python's stable `sorted(scores, key=lambda x:
x[1], reverse=True)` (recommender.py line 22): descending score, ties in
ascending index order (stability). -/
def descLe (s : List ℚ) (i j : Nat) : Bool :=
  decide (s.getD j 0 < s.getD i 0 ∨ (s.getD i 0 = s.getD j 0 ∧ i ≤ j))

/-- Index order of a stable ascending `argsort`: ascending score, ties in
ascending index order. -/
def ascLe (s : List ℚ) (i j : Nat) : Bool :=
  decide (s.getD i 0 < s.getD j 0 ∨ (s.getD i 0 = s.getD j 0 ∧ i ≤ j))

/-- Ranked index list of `sorted(enumerate(sims), key=score,
reverse=True)` projected to its indices. -/
def rankedStable (s : List ℚ) : List Nat :=
  sortLe (descLe s) (List.range s.length)

/-- Ranked index list of `sims.argsort()[::-1]` (recommender.py lines 41
and 54): stable ascending argsort, then reversed, so ties come out in
descending index order. -/
def rankedArg (s : List ℚ) : List Nat :=
  (sortLe (ascLe s) (List.range s.length)).reverse

/-- Python slice stop bound: negative values count from the end, the
result is clamped to `[0, len]`. -/
def pyStop (len : Nat) (b : Int) : Nat :=
  if b < 0 then (b + (len : Int)).toNat else min b.toNat len

/-- Python slice `l[1:stop]`. -/
def pySlice1 {α : Type} (l : List α) (stop : Int) : List α :=
  (l.take (pyStop l.length stop)).drop 1

/-- Python slice `l[:n]`. -/
def pyTake {α : Type} (l : List α) (n : Int) : List α :=
  l.take (pyStop l.length n)

/-- Embedding of `Recommender.recommend_by_id` (recommender.py lines
17-24): membership test on the id column, positional index of the first
matching row, the precomputed cosine row `self.cosine_sim[idx]`, stable
descending sort of `(index, score)` pairs, slice `scores[1:n+1]`, then
`self.df.iloc[indices]`.  The absent-id branch returns `[]` normally
(line 19), embedded as `Except.ok []`. -/
def recommend_by_id (r : Recommender) (pid : Int) (n : Int) :
    Except RecError (List Product) :=
  if pid ∈ ids r then
    Except.ok ((pySlice1 (rankedStable (simsTo r (vecAt r ((ids r).indexOf pid))))
      (n + 1)).filterMap (fun i => r.products[i]?))
  else Except.ok []

/-- The `valid_ids` list of `recommend_by_cart` (line 34): supplied ids
whose value occurs in the id column, duplicates and order preserved. -/
def validOf (r : Recommender) (pids : List Int) : List Int :=
  pids.filter (fun pid => decide (pid ∈ ids r))

/-- The rows selected by `self.tfidf_matrix[idxs]` (line 37-38): one row
per valid id, multiplicity preserved. -/
def cartRows (r : Recommender) (valid : List Int) : List (List ℚ) :=
  valid.map (fun pid => vecAt r ((ids r).indexOf pid))

/-- Element-wise vector sum. -/
def vadd (a b : List ℚ) : List ℚ :=
  List.zipWith (fun x y => x + y) a b

/-- The zero vector of dimension `d`. -/
def zeros (d : Nat) : List ℚ :=
  List.replicate d 0

/-- Sum of a list of `d`-dimensional vectors. -/
def vsum (d : Nat) (vs : List (List ℚ)) : List ℚ :=
  vs.foldr vadd (zeros d)

/-- The cart query vector `np.mean(self.tfidf_matrix[idxs], axis=0)`
(line 38): element-wise sum of the selected rows divided by their
count. -/
def cartQuery (r : Recommender) (valid : List Int) : List ℚ :=
  (vsum r.dim (cartRows r valid)).map
    (fun x => x / ((cartRows r valid).length : ℚ))

/-- The accumulation loop of `recommend_by_cart` (lines 42-47): walk the
ranked indices, append `i` when row `i`'s product id is not a valid cart
id (`self.df.iloc[i]['product_id'] not in valid_ids`), and after each
iteration break when `len(final) >= n`; `cnt` is the current
`len(final)`.  Ranked indices are always in range of the dataframe, so
the `getD` default is unreachable (pandas `iloc` would raise there). -/
def cartLoop (r : Recommender) (valid : List Int) (n : Int) :
    List Nat → Nat → List Nat
  | [], _ => []
  | i :: rest, cnt =>
    if (r.products.getD i default).product_id ∈ valid then
      if n ≤ (cnt : Int) then [] else cartLoop r valid n rest cnt
    else
      if n ≤ (cnt : Int) + 1 then [i] else i :: cartLoop r valid n rest (cnt + 1)

/-- Embedding of `Recommender.recommend_by_cart` (recommender.py lines
32-48): filter to valid ids, early `[]` when none is valid (line 36,
a normal return, hence `Except.ok`), mean of the selected TF-IDF rows,
similarity row of that mean against the whole matrix, `argsort()[::-1]`
ranking, the exclusion/break loop, then `self.df.iloc[final]`. -/
def recommend_by_cart (r : Recommender) (pids : List Int) (n : Int) :
    Except RecError (List Product) :=
  if validOf r pids = [] then Except.ok []
  else
    Except.ok ((cartLoop r (validOf r pids) n
      (rankedArg (simsTo r (cartQuery r (validOf r pids)))) 0).filterMap
      (fun i => r.products[i]?))

/-- Embedding of `Recommender.recommend_by_search` (recommender.py lines
50-55): `if not query` is Python falsiness of a string, true exactly for
the empty string; otherwise the query is vectorized with the fitted
vectorizer, ranked by `argsort()[::-1]`, truncated with the slice `[:n]`,
then `self.df.iloc[rel_idxs]`. -/
def recommend_by_search (r : Recommender) (q : String) (n : Int) :
    Except RecError (List Product) :=
  if q = "" then Except.ok []
  else
    Except.ok ((pyTake (rankedArg (simsTo r (r.transform q))) n).filterMap
      (fun i => r.products[i]?))

/-! ### Concrete catalog used by witnesses and counterexamples

The three-product snapshot of the design document's §8 scenarios: two
similar shoes and one laptop, with unit-norm rational vectors standing in
for their TF-IDF rows. -/

/-- Scenario product 1: the red shoe. -/
def exP1 : Product :=
  ⟨1, "Red Shoe", "Fashion", "comfortable red running shoe", 10, "img1", 0⟩

/-- Scenario product 2: the blue shoe. -/
def exP2 : Product :=
  ⟨2, "Blue Shoe", "Fashion", "comfortable blue running shoe", 11, "img2", 0⟩

/-- Scenario product 3: the laptop. -/
def exP3 : Product :=
  ⟨3, "Laptop", "Electronics", "powerful gaming laptop", 99, "img3", 0⟩

/-- Concrete transform of the scenario vectorizer: "laptop" hits the
laptop axis, whitespace-only text has no retained terms and yields the
zero vector (§4.1), anything else points at the shoe terms. -/
def exTransform : String → List ℚ := fun q =>
  if q = "laptop" then [0, 0, 1]
  else if q = " " then [0, 0, 0]
  else [3/5, 4/5, 0]

/-- The scenario snapshot: rows in ascending product-id order, unit-norm
vectors, shoes similar to each other and orthogonal to the laptop. -/
def exR : Recommender :=
  ⟨[exP1, exP2, exP3],
   [[3/5, 4/5, 0], [4/5, 3/5, 0], [0, 0, 1]],
   3, exTransform⟩

/-- Two products with byte-identical metadata (a catalog duplicate), used
to exhibit tie-breaking behaviour: identical text gives identical TF-IDF
rows. -/
def pD1 : Product :=
  ⟨1, "Red Shoe", "Fashion", "comfortable red running shoe", 10, "imgA", 0⟩

/-- Second copy of the duplicated product, with the larger id. -/
def pD2 : Product :=
  ⟨2, "Red Shoe", "Fashion", "comfortable red running shoe", 12, "imgB", 0⟩

/-- A snapshot holding two products with identical metadata, hence equal
unit vectors; every query ties them. -/
def exDup : Recommender :=
  ⟨[pD1, pD2], [[1], [1]], 1, fun _ => [1]⟩

/-- Modelled from the spec: §6's caller-facing API describes each result
as a product record enriched with its similarity score.  The repository
code (recommender.py line 55 and friends) returns the bare dataframe
records with no score attached, so this spec-side variant of the search
query, which pairs every returned record with its score, exists only for
comparison against the code's output. -/
def searchScored (r : Recommender) (q : String) (n : Int) :
    List (Product × ℚ) :=
  if q = "" then []
  else
    let s := simsTo r (r.transform q)
    (pyTake (rankedArg s) n).filterMap (fun i =>
      match r.products[i]? with
      | some p => some (p, s.getD i 0)
      | none => none)

/-- Modelled from the spec: the element-wise mean of a list of vectors
(§4.2 aggregation rule for multi-item queries), written exactly as the
spec words it: component `j` is the average of the `j`-th components. -/
def specCartMean (vs : List (List ℚ)) (d : Nat) : List ℚ :=
  (List.range d).map (fun j => (vs.map (fun v => v.getD j 0)).sum / (vs.length : ℚ))

/-- Ranking relation the amended sortedness claim asserts of two result
records: the earlier one has the strictly larger score, or scores tie and
the earlier one has the larger product id (`s` is the score row of the
query, a record's score is read off at its first matching row). -/
def resRel (r : Recommender) (s : List ℚ) (p q : Product) : Prop :=
  s.getD ((ids r).indexOf q.product_id) 0 < s.getD ((ids r).indexOf p.product_id) 0 ∨
    (s.getD ((ids r).indexOf p.product_id) 0 = s.getD ((ids r).indexOf q.product_id) 0 ∧
      q.product_id < p.product_id)

/-- Index-level order delivered by `argsort()[::-1]`: strictly descending
score, equal scores in strictly descending index order. -/
def descIdx (s : List ℚ) (i j : Nat) : Prop :=
  s.getD j 0 < s.getD i 0 ∨ (s.getD i 0 = s.getD j 0 ∧ j < i)

example : recommend_by_id exR 999 3 = Except.ok [] := by with_unfolding_all decide
example : recommend_by_search exR "laptop" 1 = Except.ok [exP3] := by with_unfolding_all decide
example : recommend_by_cart exR [1, 2] 1 = Except.ok [exP3] := by with_unfolding_all decide
example : recommend_by_id exR 1 2 = Except.ok [exP2, exP3] := by with_unfolding_all decide

/-! ### Insertion sort: permutation and sortedness -/

theorem perm_insertLe (le : Nat → Nat → Bool) (x : Nat) (l : List Nat) :
    (insertLe le x l).Perm (x :: l) := by
  induction l with
  | nil => exact List.Perm.refl _
  | cons y ys ih =>
    simp only [insertLe]
    split
    · exact List.Perm.refl _
    · exact (ih.cons y).trans (List.Perm.swap x y ys)

theorem perm_sortLe (le : Nat → Nat → Bool) (l : List Nat) :
    (sortLe le l).Perm l := by
  induction l with
  | nil => exact List.Perm.refl _
  | cons x xs ih => exact (perm_insertLe le x (sortLe le xs)).trans (ih.cons x)

theorem pairwise_insertLe (le : Nat → Nat → Bool)
    (htot : ∀ a b, le a b = true ∨ le b a = true)
    (htr : ∀ a b c, le a b = true → le b c = true → le a c = true)
    (x : Nat) (l : List Nat) (h : l.Pairwise (fun a b => le a b = true)) :
    (insertLe le x l).Pairwise (fun a b => le a b = true) := by
  induction l with
  | nil => simp [insertLe]
  | cons y ys ih =>
    obtain ⟨hy, hys⟩ := List.pairwise_cons.mp h
    simp only [insertLe]
    split
    next hxy =>
      refine List.Pairwise.cons ?_ (List.Pairwise.cons hy hys)
      intro b hb
      rcases List.mem_cons.mp hb with rfl | hb
      · exact hxy
      · exact htr x y b hxy (hy b hb)
    next hxy =>
      have hyx : le y x = true := by
        rcases htot x y with h1 | h1
        · exact absurd h1 hxy
        · exact h1
      refine List.Pairwise.cons ?_ (ih hys)
      intro b hb
      have hb2 : b = x ∨ b ∈ ys := by
        have := (perm_insertLe le x ys).mem_iff.mp hb
        simpa using this
      rcases hb2 with rfl | hb2
      · exact hyx
      · exact hy b hb2

theorem pairwise_sortLe (le : Nat → Nat → Bool)
    (htot : ∀ a b, le a b = true ∨ le b a = true)
    (htr : ∀ a b c, le a b = true → le b c = true → le a c = true)
    (l : List Nat) : (sortLe le l).Pairwise (fun a b => le a b = true) := by
  induction l with
  | nil => simp [sortLe]
  | cons x xs ih => exact pairwise_insertLe le htot htr x (sortLe le xs) ih

theorem insertLe_eq_cons (le : Nat → Nat → Bool) (x : Nat) (l : List Nat)
    (h : ∀ y, l.head? = some y → le x y = true) : insertLe le x l = x :: l := by
  cases l with
  | nil => rfl
  | cons y ys => simp [insertLe, h y rfl]

theorem sortLe_eq_self (le : Nat → Nat → Bool) (l : List Nat)
    (h : l.Pairwise (fun a b => le a b = true)) : sortLe le l = l := by
  induction l with
  | nil => rfl
  | cons x xs ih =>
    obtain ⟨h1, h2⟩ := List.pairwise_cons.mp h
    rw [sortLe, ih h2, insertLe_eq_cons]
    intro y hy
    cases xs with
    | nil => simp at hy
    | cons z zs =>
      simp only [List.head?_cons, Option.some.injEq] at hy
      subst hy
      exact h1 z (by simp)

/-! ### The reversed stable argsort -/

theorem ascLe_total (s : List ℚ) (i j : Nat) :
    ascLe s i j = true ∨ ascLe s j i = true := by
  simp only [ascLe, decide_eq_true_eq]
  rcases lt_trichotomy (s.getD i 0) (s.getD j 0) with h | h | h
  · exact Or.inl (Or.inl h)
  · rcases Nat.le_total i j with hij | hij
    · exact Or.inl (Or.inr ⟨h, hij⟩)
    · exact Or.inr (Or.inr ⟨h.symm, hij⟩)
  · exact Or.inr (Or.inl h)

theorem ascLe_trans (s : List ℚ) (a b c : Nat)
    (h1 : ascLe s a b = true) (h2 : ascLe s b c = true) : ascLe s a c = true := by
  simp only [ascLe, decide_eq_true_eq] at h1 h2 ⊢
  rcases h1 with h1 | ⟨e1, le1⟩
  · rcases h2 with h2 | ⟨e2, _⟩
    · exact Or.inl (h1.trans h2)
    · exact Or.inl (e2 ▸ h1)
  · rcases h2 with h2 | ⟨e2, le2⟩
    · exact Or.inl (e1 ▸ h2)
    · exact Or.inr ⟨e1.trans e2, le1.trans le2⟩

theorem pairwise_rankedArg (s : List ℚ) :
    (rankedArg s).Pairwise (descIdx s) := by
  have hsort := pairwise_sortLe (ascLe s) (ascLe_total s) (ascLe_trans s)
    (List.range s.length)
  have hperm := perm_sortLe (ascLe s) (List.range s.length)
  have hnd : (sortLe (ascLe s) (List.range s.length)).Nodup :=
    hperm.symm.nodup (List.nodup_range _)
  have hcomb := hsort.and hnd
  rw [rankedArg, List.pairwise_reverse]
  refine hcomb.imp ?_
  intro i j hij
  obtain ⟨hle, hne⟩ := hij
  simp only [ascLe, decide_eq_true_eq] at hle
  rcases hle with h | ⟨e, hij2⟩
  · exact Or.inl h
  · exact Or.inr ⟨e.symm, lt_of_le_of_ne hij2 hne⟩

theorem mem_rankedArg (s : List ℚ) (i : Nat) (h : i ∈ rankedArg s) :
    i < s.length := by
  rw [rankedArg, List.mem_reverse] at h
  have := (perm_sortLe (ascLe s) (List.range s.length)).mem_iff.mp h
  exact List.mem_range.mp this

/-! ### Python slices -/

theorem pySlice1_stop_one {α : Type} (l : List α) : pySlice1 l 1 = [] := by
  rw [pySlice1, List.drop_eq_nil_iff]
  have : pyStop l.length 1 ≤ 1 := by
    simp [pyStop]
  simp only [List.length_take]
  omega

theorem pyTake_zero {α : Type} (l : List α) : pyTake l 0 = [] := by
  simp [pyTake, pyStop]

theorem pySlice1_sublist {α : Type} (l : List α) (n : Int) :
    (pySlice1 l n).Sublist l := by
  rw [pySlice1]
  exact (List.drop_sublist _ _).trans (List.take_sublist _ _)

theorem pyTake_sublist {α : Type} (l : List α) (n : Int) :
    (pyTake l n).Sublist l := List.take_sublist _ _

/-! ### The exclusion/break loop of `recommend_by_cart` -/

theorem cartLoop_sublist (r : Recommender) (valid : List Int) (n : Int) :
    ∀ (rel : List Nat) (cnt : Nat), (cartLoop r valid n rel cnt).Sublist rel := by
  intro rel
  induction rel with
  | nil => intro cnt; simp [cartLoop]
  | cons i rest ih =>
    intro cnt
    simp only [cartLoop]
    split
    · split
      · exact List.nil_sublist _
      · exact (ih cnt).cons i
    · split
      · exact (List.nil_sublist rest).cons₂ i
      · exact (ih (cnt + 1)).cons₂ i

theorem cartLoop_excl (r : Recommender) (valid : List Int) (n : Int) :
    ∀ (rel : List Nat) (cnt : Nat) (i : Nat), i ∈ cartLoop r valid n rel cnt →
      (r.products.getD i default).product_id ∉ valid := by
  intro rel
  induction rel with
  | nil => intro cnt i hi; simp [cartLoop] at hi
  | cons j rest ih =>
    intro cnt i hi
    simp only [cartLoop] at hi
    split at hi
    · split at hi
      · simp at hi
      · exact ih cnt i hi
    · next hin =>
      split at hi
      · have : i = j := by simpa using hi
        exact this ▸ hin
      · rcases List.mem_cons.mp hi with rfl | hi2
        · exact hin
        · exact ih (cnt + 1) i hi2

theorem cartLoop_len_le_one (r : Recommender) (valid : List Int) (n : Int)
    (hn : n ≤ 0) (rel : List Nat) :
    (cartLoop r valid n rel 0).length ≤ 1 := by
  cases rel with
  | nil => simp [cartLoop]
  | cons i rest =>
    simp only [cartLoop]
    split
    · rw [if_pos (by exact_mod_cast hn)]
      simp
    · rw [if_pos (by omega)]
      simp

/-! ### Vector arithmetic -/

theorem getD_in_range {α : Type} (l : List α) (d : α) (j : Nat) (h : j < l.length) :
    l.getD j d = l[j] := by
  rw [List.getD_eq_getElem?_getD, List.getElem?_eq_getElem h]
  rfl

theorem getD_zeros (d j : Nat) : (zeros d).getD j 0 = 0 := by
  induction d generalizing j with
  | zero => simp [zeros]
  | succ d ih =>
    cases j with
    | zero => simp [zeros, List.replicate_succ]
    | succ j =>
      rw [zeros, List.replicate_succ, List.getD_cons_succ]
      exact ih j

theorem length_vadd (a b : List ℚ) : (vadd a b).length = min a.length b.length := by
  simp [vadd]

theorem length_vsum (d : Nat) (vs : List (List ℚ)) (hdim : ∀ v ∈ vs, v.length = d) :
    (vsum d vs).length = d := by
  induction vs with
  | nil => simp [vsum, zeros]
  | cons v rest ih =>
    have h1 : (vsum d rest).length = d :=
      ih (fun w hw => hdim w (List.mem_cons_of_mem v hw))
    have h2 : v.length = d := hdim v (List.mem_cons_self v rest)
    show (vadd v (vsum d rest)).length = d
    rw [length_vadd, h1, h2, Nat.min_self]

theorem getD_vadd (a b : List ℚ) (j : Nat) (hj1 : j < a.length) (hj2 : j < b.length) :
    (vadd a b).getD j 0 = a.getD j 0 + b.getD j 0 := by
  have h : j < (vadd a b).length := by
    rw [length_vadd]
    omega
  rw [getD_in_range _ _ _ h, getD_in_range _ _ _ hj1, getD_in_range _ _ _ hj2]
  simp [vadd]

theorem getD_vsum (d : Nat) (vs : List (List ℚ)) (hdim : ∀ v ∈ vs, v.length = d)
    (j : Nat) (hj : j < d) :
    (vsum d vs).getD j 0 = (vs.map (fun v => v.getD j 0)).sum := by
  induction vs with
  | nil =>
    show (zeros d).getD j 0 = _
    rw [getD_zeros]
    simp
  | cons v rest ih =>
    have hr : ∀ w ∈ rest, w.length = d := fun w hw => hdim w (List.mem_cons_of_mem v hw)
    have hv : v.length = d := hdim v (List.mem_cons_self v rest)
    have hlen : (vsum d rest).length = d := length_vsum d rest hr
    show (vadd v (vsum d rest)).getD j 0 = _
    rw [getD_vadd v _ j (by omega) (by omega), ih hr]
    simp

theorem dotQ_nil_right (a : List ℚ) : dotQ a [] = 0 := by
  cases a <;> rfl

theorem dotQ_cons (x y : ℚ) (a b : List ℚ) :
    dotQ (x :: a) (y :: b) = x * y + dotQ a b := by
  simp [dotQ]

theorem dotQ_comm (a b : List ℚ) : dotQ a b = dotQ b a := by
  unfold dotQ
  rw [List.zipWith_comm_of_comm _ (fun x y => mul_comm x y) a b]

theorem dotQ_nonneg (a b : List ℚ) (ha : ∀ x ∈ a, 0 ≤ x) (hb : ∀ x ∈ b, 0 ≤ x) :
    0 ≤ dotQ a b := by
  induction a generalizing b with
  | nil => simp [dotQ]
  | cons x xs ih =>
    cases b with
    | nil => simp [dotQ_nil_right]
    | cons y ys =>
      rw [dotQ_cons]
      have h1 := mul_nonneg (ha x (by simp)) (hb y (by simp))
      have h2 := ih ys (fun z hz => ha z (by simp [hz])) (fun z hz => hb z (by simp [hz]))
      linarith

theorem normSq_nonneg (a : List ℚ) : 0 ≤ normSq a := by
  induction a with
  | nil => simp [normSq, dotQ]
  | cons x xs ih =>
    have h2 : (0 : ℚ) ≤ dotQ xs xs := ih
    rw [normSq, dotQ_cons]
    have h1 := mul_self_nonneg x
    linarith

theorem dotQ_zero_left (a : List ℚ) (h : normSq a = 0) (b : List ℚ) : dotQ a b = 0 := by
  induction a generalizing b with
  | nil => simp [dotQ]
  | cons x xs ih =>
    rw [normSq, dotQ_cons] at h
    have hx := mul_self_nonneg x
    have hxs : (0 : ℚ) ≤ dotQ xs xs := normSq_nonneg xs
    have h1 : x = 0 := mul_self_eq_zero.mp (by linarith)
    have h2 : normSq xs = 0 := by rw [normSq]; linarith
    cases b with
    | nil => simp [dotQ_nil_right]
    | cons y ys =>
      rw [dotQ_cons, h1, ih h2 ys]
      ring

theorem dotQ_eq_sum (a b : List ℚ) :
    dotQ a b = ∑ j ∈ Finset.range (min a.length b.length), a.getD j 0 * b.getD j 0 := by
  induction a generalizing b with
  | nil => simp [dotQ]
  | cons x xs ih =>
    cases b with
    | nil => simp [dotQ_nil_right]
    | cons y ys =>
      rw [dotQ_cons, ih ys]
      have hmin : min (x :: xs).length (y :: ys).length = min xs.length ys.length + 1 := by
        simp [List.length_cons, Nat.succ_min_succ]
      rw [hmin, Finset.sum_range_succ']
      simp only [List.getD_cons_succ, List.getD_cons_zero]
      ring

theorem normSq_eq_sum (a : List ℚ) :
    normSq a = ∑ j ∈ Finset.range a.length, (a.getD j 0) ^ 2 := by
  rw [normSq, dotQ_eq_sum, Nat.min_self]
  refine Finset.sum_congr rfl ?_
  intro j _
  ring

theorem dotQ_sq_le (a b : List ℚ) : (dotQ a b) ^ 2 ≤ normSq a * normSq b := by
  have hcs := Finset.sum_mul_sq_le_sq_mul_sq (Finset.range (min a.length b.length))
    (fun j => a.getD j 0) (fun j => b.getD j 0)
  have ha : ∑ j ∈ Finset.range (min a.length b.length), (a.getD j 0) ^ 2 ≤ normSq a := by
    rw [normSq_eq_sum]
    refine Finset.sum_le_sum_of_subset_of_nonneg
      (Finset.range_subset.mpr (by omega)) ?_
    intro j _ _
    positivity
  have hb : ∑ j ∈ Finset.range (min a.length b.length), (b.getD j 0) ^ 2 ≤ normSq b := by
    rw [normSq_eq_sum]
    refine Finset.sum_le_sum_of_subset_of_nonneg
      (Finset.range_subset.mpr (by omega)) ?_
    intro j _ _
    positivity
  have hbn : (0 : ℚ) ≤ ∑ j ∈ Finset.range (min a.length b.length), (b.getD j 0) ^ 2 := by
    positivity
  calc (dotQ a b) ^ 2
      = (∑ j ∈ Finset.range (min a.length b.length), a.getD j 0 * b.getD j 0) ^ 2 := by
        rw [dotQ_eq_sum]
    _ ≤ (∑ j ∈ Finset.range (min a.length b.length), (a.getD j 0) ^ 2) *
        ∑ j ∈ Finset.range (min a.length b.length), (b.getD j 0) ^ 2 := hcs
    _ ≤ normSq a * normSq b := mul_le_mul ha hb hbn (normSq_nonneg a)

/-! ### Lifting index-level ranking facts to the returned records -/

theorem mem_products_of_filterMap (r : Recommender) (sel : List Nat) (p : Product)
    (hp : p ∈ sel.filterMap (fun i => r.products[i]?)) : p ∈ r.products := by
  obtain ⟨i, _, hsome⟩ := List.mem_filterMap.mp hp
  obtain ⟨hi, rfl⟩ := List.getElem?_eq_some.mp hsome
  exact List.getElem_mem hi

theorem pairwise_res_of_sel (r : Recommender) (s : List ℚ)
    (hmono : (ids r).Pairwise (· < ·)) (sel : List Nat)
    (hsel : sel.Sublist (rankedArg s)) :
    (sel.filterMap (fun i => r.products[i]?)).Pairwise (resRel r s) := by
  have hp : sel.Pairwise (descIdx s) :=
    List.Pairwise.sublist hsel (pairwise_rankedArg s)
  rw [List.pairwise_filterMap]
  refine hp.imp ?_
  intro i j hij p hpmem q hqmem
  rw [Option.mem_def] at hpmem hqmem
  obtain ⟨hi, hpi⟩ := List.getElem?_eq_some.mp hpmem
  obtain ⟨hj, hqj⟩ := List.getElem?_eq_some.mp hqmem
  have hnd : (ids r).Nodup := hmono.imp (fun hab => ne_of_lt hab)
  have hlen : (ids r).length = r.products.length := List.length_map _ _
  have hi2 : i < (ids r).length := by omega
  have hj2 : j < (ids r).length := by omega
  have hidp : (ids r)[i] = p.product_id := by
    simp only [ids, List.getElem_map]
    rw [hpi]
  have hidq : (ids r)[j] = q.product_id := by
    simp only [ids, List.getElem_map]
    rw [hqj]
  have hixp : (ids r).indexOf p.product_id = i := by
    rw [← hidp]
    exact List.indexOf_getElem hnd i hi2
  have hixq : (ids r).indexOf q.product_id = j := by
    rw [← hidq]
    exact List.indexOf_getElem hnd j hj2
  unfold resRel
  rw [hixp, hixq]
  rcases hij with h | ⟨e, hlt⟩
  · exact Or.inl h
  · refine Or.inr ⟨e, ?_⟩
    have hord := List.pairwise_iff_getElem.mp hmono j i hj2 hi2 hlt
    rw [hidp, hidq] at hord
    exact hord

/-- C1: for the nearest-to-vector operations (`recommend_by_cart` and
`recommend_by_search`) the returned sequence is sorted by strictly
descending similarity score, but equal scores appear in *descending*
product-id order (the claim's "smaller id precedes" is refuted by
`c1_tie_asc_id_cex`): `argsort()[::-1]` reverses the stable ascending
argsort, so ties come out largest row (largest id) first, for a catalog
whose rows carry strictly ascending product ids. -/
theorem c1_sorted_desc_ties_desc_id (r : Recommender) (q : String)
    (pids : List Int) (n : Int) (hmono : (ids r).Pairwise (· < ·)) :
    (∀ l, recommend_by_search r q n = Except.ok l →
      l.Pairwise (resRel r (simsTo r (r.transform q)))) ∧
    (∀ l, recommend_by_cart r pids n = Except.ok l →
      l.Pairwise (resRel r (simsTo r (cartQuery r (validOf r pids))))) := by
  constructor
  · intro l hl
    unfold recommend_by_search at hl
    split at hl
    · have h2 : l = [] := by simpa using hl.symm
      subst h2
      exact List.Pairwise.nil
    · have h2 : (pyTake (rankedArg (simsTo r (r.transform q))) n).filterMap
          (fun i => r.products[i]?) = l := by
        simpa using hl
      subst h2
      exact pairwise_res_of_sel r _ hmono _ (pyTake_sublist _ _)
  · intro l hl
    unfold recommend_by_cart at hl
    split at hl
    · have h2 : l = [] := by simpa using hl.symm
      subst h2
      exact List.Pairwise.nil
    · have h2 : (cartLoop r (validOf r pids) n
          (rankedArg (simsTo r (cartQuery r (validOf r pids)))) 0).filterMap
          (fun i => r.products[i]?) = l := by
        simpa using hl
      subst h2
      exact pairwise_res_of_sel r _ hmono _ (cartLoop_sublist r _ n _ 0)

/-- Witness for `c1_sorted_desc_ties_desc_id` at the three-product
scenario snapshot: a text query and a one-item cart query, hypotheses
discharged by evaluation. -/
theorem c1_sorted_witness :
    (ids exR).Pairwise (· < ·) ∧
    List.Pairwise (resRel exR (simsTo exR (exR.transform "shoe"))) [exP1, exP2] ∧
    List.Pairwise (resRel exR (simsTo exR (cartQuery exR (validOf exR [1])))) [exP2, exP3] := by
  refine ⟨by with_unfolding_all decide, ?_, ?_⟩
  · exact (c1_sorted_desc_ties_desc_id exR "shoe" [1] 2
      (by with_unfolding_all decide)).1 [exP1, exP2] (by with_unfolding_all decide)
  · exact (c1_sorted_desc_ties_desc_id exR "shoe" [1] 2
      (by with_unfolding_all decide)).2 [exP2, exP3] (by with_unfolding_all decide)

/-- Counterexample to C1 as stated: on a catalog with two identical
products (equal vectors, ids 1 and 2), a search query ties both rows and
the result lists id 2 *before* id 1 — equal scores in descending, not
ascending, id order. -/
theorem c1_tie_asc_id_cex :
    recommend_by_search exDup "x" 2 = Except.ok [pD2, pD1] ∧
    sim (exDup.transform "x") (vecAt exDup 0) = sim (exDup.transform "x") (vecAt exDup 1) ∧
    pD1.product_id < pD2.product_id := by
  with_unfolding_all decide

/-- C8 (amended): every successful call of the three query operations
returns a selection of the untouched catalog records (joined back from
row index), listed in the order of the operation's ranked index list; no
similarity score is attached to the records (the claim's "enriched with
a similarity score" is refuted by `c8_no_score_cex`). -/
theorem c8_joinback_order (r : Recommender) (pid : Int) (pids : List Int)
    (q : String) (n : Int) :
    (∀ l, recommend_by_id r pid n = Except.ok l →
      (∀ p ∈ l, p ∈ r.products) ∧
      ∃ sel : List Nat, sel.Sublist (rankedStable (simsTo r (vecAt r ((ids r).indexOf pid)))) ∧
        l = sel.filterMap (fun i => r.products[i]?)) ∧
    (∀ l, recommend_by_cart r pids n = Except.ok l →
      (∀ p ∈ l, p ∈ r.products) ∧
      ∃ sel : List Nat, sel.Sublist (rankedArg (simsTo r (cartQuery r (validOf r pids)))) ∧
        l = sel.filterMap (fun i => r.products[i]?)) ∧
    (∀ l, recommend_by_search r q n = Except.ok l →
      (∀ p ∈ l, p ∈ r.products) ∧
      ∃ sel : List Nat, sel.Sublist (rankedArg (simsTo r (r.transform q))) ∧
        l = sel.filterMap (fun i => r.products[i]?)) := by
  refine ⟨?_, ?_, ?_⟩
  · intro l hl
    unfold recommend_by_id at hl
    split at hl
    · have h2 : (pySlice1 (rankedStable (simsTo r (vecAt r ((ids r).indexOf pid))))
          (n + 1)).filterMap (fun i => r.products[i]?) = l := by
        simpa using hl
      subst h2
      exact ⟨fun p hp => mem_products_of_filterMap r _ p hp,
        _, pySlice1_sublist _ _, rfl⟩
    · have h2 : l = [] := by simpa using hl.symm
      subst h2
      exact ⟨by simp, [], List.nil_sublist _, by simp⟩
  · intro l hl
    unfold recommend_by_cart at hl
    split at hl
    · have h2 : l = [] := by simpa using hl.symm
      subst h2
      exact ⟨by simp, [], List.nil_sublist _, by simp⟩
    · have h2 : (cartLoop r (validOf r pids) n
          (rankedArg (simsTo r (cartQuery r (validOf r pids)))) 0).filterMap
          (fun i => r.products[i]?) = l := by
        simpa using hl
      subst h2
      exact ⟨fun p hp => mem_products_of_filterMap r _ p hp,
        _, cartLoop_sublist r _ n _ 0, rfl⟩
  · intro l hl
    unfold recommend_by_search at hl
    split at hl
    · have h2 : l = [] := by simpa using hl.symm
      subst h2
      exact ⟨by simp, [], List.nil_sublist _, by simp⟩
    · have h2 : (pyTake (rankedArg (simsTo r (r.transform q))) n).filterMap
          (fun i => r.products[i]?) = l := by
        simpa using hl
      subst h2
      exact ⟨fun p hp => mem_products_of_filterMap r _ p hp,
        _, pyTake_sublist _ _, rfl⟩

/-- Witness for `c8_joinback_order` at the scenario snapshot, one
instantiation per query operation. -/
theorem c8_joinback_witness :
    ((∀ p ∈ [exP2], p ∈ exR.products) ∧
      ∃ sel : List Nat, sel.Sublist (rankedStable (simsTo exR (vecAt exR ((ids exR).indexOf 1)))) ∧
        [exP2] = sel.filterMap (fun i => exR.products[i]?)) ∧
    ((∀ p ∈ [exP3], p ∈ exR.products) ∧
      ∃ sel : List Nat, sel.Sublist (rankedArg (simsTo exR (cartQuery exR (validOf exR [1, 2])))) ∧
        [exP3] = sel.filterMap (fun i => exR.products[i]?)) ∧
    ((∀ p ∈ [exP3], p ∈ exR.products) ∧
      ∃ sel : List Nat, sel.Sublist (rankedArg (simsTo exR (exR.transform "laptop"))) ∧
        [exP3] = sel.filterMap (fun i => exR.products[i]?)) :=
  ⟨(c8_joinback_order exR 1 [1, 2] "laptop" 1).1 [exP2] (by with_unfolding_all decide),
   (c8_joinback_order exR 1 [1, 2] "laptop" 1).2.1 [exP3] (by with_unfolding_all decide),
   (c8_joinback_order exR 1 [1, 2] "laptop" 1).2.2 [exP3] (by with_unfolding_all decide)⟩

/-- Counterexample to C8's "enriched with that result's similarity
score": at the scenario snapshot the code returns the bare catalog
record `exP3` (a `Product`, carrying no score), while the spec-modelled
enriched output pairs that record with its score `1`. -/
theorem c8_no_score_cex :
    recommend_by_search exR "laptop" 1 = Except.ok [exP3] ∧
    searchScored exR "laptop" 1 = [(exP3, 1)] := by
  with_unfolding_all decide

/-! ### C2: the cart query vector -/

/-- C2: with at least one valid cart id, `recommend_by_cart` builds its
query vector as the element-wise mean (the spec's wording, `specCartMean`)
of the TF-IDF rows of the valid ids — ids absent from the catalog are
dropped by the `valid_ids` filter and the call still returns normally —
and that mean is fed to the similarity computation as is, with no
re-normalization step between `np.mean` and `cosine_similarity`. -/
theorem c2_cart_mean_unnormalized (r : Recommender) (pids : List Int) (n : Int)
    (hlen : r.vecs.length = r.products.length)
    (hdim : ∀ v ∈ r.vecs, v.length = r.dim)
    (hne : validOf r pids ≠ []) :
    cartQuery r (validOf r pids) = specCartMean (cartRows r (validOf r pids)) r.dim ∧
    recommend_by_cart r pids n = Except.ok ((cartLoop r (validOf r pids) n
      (rankedArg (simsTo r (cartQuery r (validOf r pids)))) 0).filterMap
      (fun i => r.products[i]?)) := by
  have hrows : ∀ v ∈ cartRows r (validOf r pids), v.length = r.dim := by
    intro v hv
    obtain ⟨pid, hpid, rfl⟩ := List.mem_map.mp hv
    have hmem : pid ∈ ids r := by
      have h2 := (List.mem_filter.mp hpid).2
      simpa using h2
    have hlt : (ids r).indexOf pid < r.vecs.length := by
      have h2 := List.indexOf_lt_length.mpr hmem
      have h3 : (ids r).length = r.products.length := List.length_map _ _
      omega
    have hvec : vecAt r ((ids r).indexOf pid) = r.vecs[(ids r).indexOf pid] :=
      getD_in_range _ _ _ hlt
    rw [hvec]
    exact hdim _ (List.getElem_mem hlt)
  constructor
  · have hvs : (vsum r.dim (cartRows r (validOf r pids))).length = r.dim :=
      length_vsum _ _ hrows
    apply List.ext_getElem
    · simp [cartQuery, specCartMean, hvs]
    · intro j hj1 hj2
      have hj : j < r.dim := by
        simpa [cartQuery, hvs] using hj1
      simp only [cartQuery, specCartMean, List.getElem_map, List.getElem_range]
      rw [← getD_in_range (vsum r.dim (cartRows r (validOf r pids))) 0 j (by omega)]
      rw [getD_vsum _ _ hrows j hj]
  · unfold recommend_by_cart
    rw [if_neg hne]

/-- Witness for `c2_cart_mean_unnormalized`: a cart holding the two shoes
plus the unknown id 999, which is silently dropped. -/
theorem c2_cart_mean_witness :
    exR.vecs.length = exR.products.length ∧
    (∀ v ∈ exR.vecs, v.length = exR.dim) ∧
    validOf exR [1, 2, 999] ≠ [] ∧
    (cartQuery exR (validOf exR [1, 2, 999]) =
      specCartMean (cartRows exR (validOf exR [1, 2, 999])) exR.dim ∧
    recommend_by_cart exR [1, 2, 999] 1 = Except.ok ((cartLoop exR (validOf exR [1, 2, 999]) 1
      (rankedArg (simsTo exR (cartQuery exR (validOf exR [1, 2, 999])))) 0).filterMap
      (fun i => exR.products[i]?))) :=
  ⟨by with_unfolding_all decide, by with_unfolding_all decide, by with_unfolding_all decide,
   c2_cart_mean_unnormalized exR [1, 2, 999] 1 (by with_unfolding_all decide)
     (by with_unfolding_all decide) (by with_unfolding_all decide)⟩

/-! ### C9: properties of the similarity function -/

/-- C9: for TF-IDF vectors (entrywise non-negative, unit-norm or zero —
the guarantee of the fitted vectorizer, taken as hypotheses), similarity
is symmetric and lies in `[0, 1]`; when either vector is zero the
similarity is `0`, including the self-similarity of a zero vector, and
the total function `sim` has no division (hence no division by zero). -/
theorem c9_similarity_props (a b : List ℚ)
    (ha : ∀ x ∈ a, 0 ≤ x) (hb : ∀ x ∈ b, 0 ≤ x)
    (hna : normSq a = 1 ∨ normSq a = 0) (hnb : normSq b = 1 ∨ normSq b = 0) :
    sim a b = sim b a ∧ 0 ≤ sim a b ∧ sim a b ≤ 1 ∧
    (normSq a = 0 → sim a b = 0 ∧ sim a a = 0) ∧
    (normSq b = 0 → sim a b = 0) := by
  have hsymm : sim a b = sim b a := dotQ_comm a b
  have hnn : 0 ≤ sim a b := dotQ_nonneg a b ha hb
  refine ⟨hsymm, hnn, ?_, ?_, ?_⟩
  · rcases hna with h1 | h1
    · rcases hnb with h2 | h2
      · have hcs := dotQ_sq_le a b
        rw [h1, h2] at hcs
        have hcs2 : (sim a b) ^ 2 ≤ 1 * 1 := hcs
        have hd : (0 : ℚ) ≤ sim a b := hnn
        nlinarith [hcs2, hd]
      · have : sim a b = 0 := by
          rw [sim, dotQ_comm]
          exact dotQ_zero_left b h2 a
        rw [this]
        norm_num
    · have : sim a b = 0 := dotQ_zero_left a h1 b
      rw [this]
      norm_num
  · intro h
    exact ⟨dotQ_zero_left a h b, dotQ_zero_left a h a⟩
  · intro h
    rw [sim, dotQ_comm]
    exact dotQ_zero_left b h a

/-- Witness for `c9_similarity_props` at two concrete unit vectors of the
scenario snapshot. -/
theorem c9_similarity_witness :
    (∀ x ∈ ([3/5, 4/5, 0] : List ℚ), 0 ≤ x) ∧
    (∀ x ∈ ([0, 0, 1] : List ℚ), 0 ≤ x) ∧
    (normSq [3/5, 4/5, 0] = 1 ∨ normSq ([3/5, 4/5, 0] : List ℚ) = 0) ∧
    (normSq [0, 0, 1] = 1 ∨ normSq ([0, 0, 1] : List ℚ) = 0) ∧
    (sim [3/5, 4/5, 0] [0, 0, 1] = sim [0, 0, 1] [3/5, 4/5, 0] ∧
     0 ≤ sim [3/5, 4/5, 0] [0, 0, 1] ∧ sim [3/5, 4/5, 0] [0, 0, 1] ≤ 1 ∧
     (normSq ([3/5, 4/5, 0] : List ℚ) = 0 →
       sim [3/5, 4/5, 0] [0, 0, 1] = 0 ∧ sim [3/5, 4/5, 0] [3/5, 4/5, 0] = 0) ∧
     (normSq ([0, 0, 1] : List ℚ) = 0 → sim [3/5, 4/5, 0] [0, 0, 1] = 0)) :=
  ⟨by with_unfolding_all decide, by with_unfolding_all decide,
   by with_unfolding_all decide, by with_unfolding_all decide,
   c9_similarity_props [3/5, 4/5, 0] [0, 0, 1] (by with_unfolding_all decide)
     (by with_unfolding_all decide) (by with_unfolding_all decide)
     (by with_unfolding_all decide)⟩

/-! ### C3, C4: the two "error" paths return empty lists -/

/-- C3 (amended): for a product id absent from the snapshot,
`recommend_by_id` does not fail with NotFound — line 19 returns the empty
list as a normal value (refuted as stated by `c3_not_error_cex`). -/
theorem c3_absent_id_ok_empty (r : Recommender) (pid : Int) (n : Int)
    (h : pid ∉ ids r) : recommend_by_id r pid n = Except.ok [] := by
  unfold recommend_by_id
  rw [if_neg h]

/-- Witness for `c3_absent_id_ok_empty` at the scenario snapshot and the
spec's own scenario input 999. -/
theorem c3_absent_id_witness :
    999 ∉ ids exR ∧ recommend_by_id exR 999 3 = Except.ok [] :=
  ⟨by with_unfolding_all decide,
   c3_absent_id_ok_empty exR 999 3 (by with_unfolding_all decide)⟩

/-- Counterexample to C3 as stated: `similar-to-id(999, n=3)` on the
scenario snapshot returns `ok []`, not a NotFound error. -/
theorem c3_not_error_cex :
    999 ∉ ids exR ∧ recommend_by_id exR 999 3 = Except.ok [] ∧
    recommend_by_id exR 999 3 ≠ Except.error RecError.notFound := by
  with_unfolding_all decide

/-- C4 (amended): when no supplied cart id is valid, `recommend_by_cart`
does not fail with EmptyInput — line 36 returns the empty list as a
normal value (refuted as stated by `c4_not_error_cex`). -/
theorem c4_no_valid_ok_empty (r : Recommender) (pids : List Int) (n : Int)
    (h : validOf r pids = []) : recommend_by_cart r pids n = Except.ok [] := by
  unfold recommend_by_cart
  rw [if_pos h]

/-- Witness for `c4_no_valid_ok_empty` at the spec's own scenario input
`[999]`. -/
theorem c4_no_valid_witness :
    validOf exR [999] = [] ∧ recommend_by_cart exR [999] 3 = Except.ok [] :=
  ⟨by with_unfolding_all decide,
   c4_no_valid_ok_empty exR [999] 3 (by with_unfolding_all decide)⟩

/-- Counterexample to C4 as stated: `similar-to-cart([999], n=3)` on the
scenario snapshot returns `ok []`, not an EmptyInput error. -/
theorem c4_not_error_cex :
    validOf exR [999] = [] ∧ recommend_by_cart exR [999] 3 = Except.ok [] ∧
    recommend_by_cart exR [999] 3 ≠ Except.error RecError.emptyInput := by
  with_unfolding_all decide

/-! ### C5: the query product can leak into its own result list -/

/-- C5 is violated by the code: `scores[1:n+1]` (line 23) drops the
top-ranked row assuming it is the query itself, but with a duplicated
catalog entry the stable descending sort puts the *earlier* tied row
first, and the query product itself is returned.  Here
`recommend_by_id(2, n=1)` on the duplicate catalog returns the query
product (id 2) itself. -/
theorem c5_query_returned_bug :
    recommend_by_id exDup 2 1 = Except.ok [pD2] ∧ pD2.product_id = 2 := by
  with_unfolding_all decide

/-! ### C6: non-positive limits -/

/-- C6 (amended): `n = 0` yields an empty result for `recommend_by_id`
and `recommend_by_search`; for every `n ≤ 0` the cart query's break
check fires after the first ranked candidate, so it returns at most one
record — but not always zero (refuted as stated by
`c6_negative_n_cex`, where negative `n` returns nonempty results through
Python's negative-slice semantics). -/
theorem c6_nonpositive_limit (r : Recommender) (pid : Int) (pids : List Int)
    (q : String) :
    recommend_by_id r pid 0 = Except.ok [] ∧
    recommend_by_search r q 0 = Except.ok [] ∧
    (∀ n : Int, n ≤ 0 → ∀ l, recommend_by_cart r pids n = Except.ok l →
      l.length ≤ 1) := by
  refine ⟨?_, ?_, ?_⟩
  · unfold recommend_by_id
    split
    · norm_num [pySlice1_stop_one]
    · rfl
  · unfold recommend_by_search
    split
    · rfl
    · simp [pyTake_zero]
  · intro n hn l hl
    unfold recommend_by_cart at hl
    split at hl
    · have h2 : l = [] := by simpa using hl.symm
      simp [h2]
    · have h2 : (cartLoop r (validOf r pids) n
          (rankedArg (simsTo r (cartQuery r (validOf r pids)))) 0).filterMap
          (fun i => r.products[i]?) = l := by
        simpa using hl
      subst h2
      exact le_trans (List.length_filterMap_le _ _)
        (cartLoop_len_le_one r _ n hn _)

/-- Witness for `c6_nonpositive_limit` at the scenario snapshot, with the
cart conjunct instantiated at `n = -2`. -/
theorem c6_nonpositive_witness :
    recommend_by_id exR 1 0 = Except.ok [] ∧
    recommend_by_search exR "laptop" 0 = Except.ok [] ∧
    ((-2 : Int) ≤ 0 ∧ recommend_by_cart exR [1] (-2) = Except.ok [] ∧
      ([] : List Product).length ≤ 1) := by
  refine ⟨(c6_nonpositive_limit exR 1 [1] "laptop").1,
    (c6_nonpositive_limit exR 1 [1] "laptop").2.1, by norm_num,
    by with_unfolding_all decide, ?_⟩
  exact (c6_nonpositive_limit exR 1 [1] "laptop").2.2 (-2) (by norm_num) []
    (by with_unfolding_all decide)

/-- Counterexample to C6 as stated: `n = -1` makes the search query
return two records (`sims.argsort()[::-1][:-1]` keeps all but the last),
and `n = 0` makes the cart query on the duplicate catalog return one
record (the break check runs only after the first append). -/
theorem c6_negative_n_cex :
    (-1 : Int) ≤ 0 ∧
    recommend_by_search exR "shoe" (-1) = Except.ok [exP1, exP2] ∧
    recommend_by_cart exDup [1] 0 = Except.ok [pD2] := by
  with_unfolding_all decide

/-! ### C7: empty versus whitespace-only queries -/

theorem dotQ_zeros (d : Nat) (v : List ℚ) : dotQ (zeros d) v = 0 := by
  induction d generalizing v with
  | zero => simp [zeros, dotQ]
  | succ d ih =>
    cases v with
    | nil => simp [dotQ_nil_right]
    | cons y ys =>
      have hz : zeros (d + 1) = 0 :: zeros d := by
        simp [zeros, List.replicate_succ]
      rw [hz, dotQ_cons, ih ys]
      ring

theorem simsTo_zeros (r : Recommender) :
    simsTo r (zeros r.dim) = List.replicate r.vecs.length 0 := by
  unfold simsTo
  calc List.map (fun v => sim (zeros r.dim) v) r.vecs
      = List.map (fun _ => (0 : ℚ)) r.vecs :=
        List.map_congr_left (fun v _ => dotQ_zeros r.dim v)
    _ = List.replicate r.vecs.length 0 := List.map_const' r.vecs 0

theorem sortLe_ascLe_replicate (m : Nat) :
    sortLe (ascLe (List.replicate m (0 : ℚ))) (List.range m) = List.range m := by
  apply sortLe_eq_self
  refine (List.pairwise_le_range m).imp ?_
  intro a b hab
  simp only [ascLe, decide_eq_true_eq]
  right
  refine ⟨?_, hab⟩
  show (zeros m).getD a 0 = (zeros m).getD b 0
  rw [getD_zeros, getD_zeros]

/-- C7 (amended): only the *empty* query string short-circuits to an
empty result (`if not query` is Python string falsiness); a
whitespace-only query is not caught — its transform is the zero vector,
every similarity is 0, and the code returns up to `n` records in
descending row order (refuted as stated by `c7_whitespace_cex`). -/
theorem c7_blank_query (r : Recommender) (q : String) (n : Int) :
    recommend_by_search r "" n = Except.ok [] ∧
    (q ≠ "" → r.transform q = zeros r.dim →
      recommend_by_search r q n = Except.ok
        ((pyTake (List.reverse (List.range r.vecs.length)) n).filterMap
          (fun i => r.products[i]?))) := by
  constructor
  · unfold recommend_by_search
    rw [if_pos rfl]
  · intro hq ht
    unfold recommend_by_search
    rw [if_neg hq, ht, simsTo_zeros]
    unfold rankedArg
    rw [List.length_replicate, sortLe_ascLe_replicate]

/-- Witness for `c7_blank_query` at the scenario snapshot with the
whitespace query `" "`, whose transform is the zero vector. -/
theorem c7_blank_query_witness :
    (" " : String) ≠ "" ∧ exR.transform " " = zeros exR.dim ∧
    recommend_by_search exR " " 1 = Except.ok
      ((pyTake (List.reverse (List.range exR.vecs.length)) 1).filterMap
        (fun i => exR.products[i]?)) := by
  refine ⟨by decide, by with_unfolding_all decide, ?_⟩
  exact (c7_blank_query exR " " 1).2 (by decide) (by with_unfolding_all decide)

/-- Counterexample to C7 as stated: the whitespace-only query `" "`
returns the laptop record (the highest row index, since all similarities
tie at 0), not an empty result. -/
theorem c7_whitespace_cex :
    recommend_by_search exR " " 1 = Except.ok [exP3] ∧
    recommend_by_search exR " " 1 ≠ Except.ok [] := by
  with_unfolding_all decide

/-! ### C10: duplicated cart ids -/

theorem le_count_map {α β : Type} [BEq α] [LawfulBEq α] [BEq β] [LawfulBEq β]
    (f : α → β) (l : List α) (a : α) :
    l.count a ≤ (l.map f).count (f a) := by
  induction l with
  | nil => simp
  | cons x xs ih =>
    by_cases hx : x = a
    · subst hx
      rw [List.map_cons, List.count_cons_self, List.count_cons_self]
      omega
    · rw [List.map_cons, List.count_cons_of_ne (Ne.symm hx), List.count_cons]
      split <;> omega

/-- C10: a valid id occurring `k` times in the cart is not deduplicated:
the `valid_ids` filter preserves its multiplicity, its TF-IDF row enters
the averaged row selection at least `k` times, and every occurrence is
still excluded from the results (no returned record carries that id). -/
theorem c10_duplicate_cart_ids (r : Recommender) (pids : List Int) (n : Int)
    (pid : Int) (hmem : pid ∈ ids r) (hk : 1 < pids.count pid) :
    (validOf r pids).count pid = pids.count pid ∧
    pids.count pid ≤ (cartRows r (validOf r pids)).count
      (vecAt r ((ids r).indexOf pid)) ∧
    (∀ l, recommend_by_cart r pids n = Except.ok l →
      ∀ p ∈ l, p.product_id ≠ pid) := by
  have hcount : (validOf r pids).count pid = pids.count pid := by
    unfold validOf
    exact List.count_filter (by simpa using hmem)
  refine ⟨hcount, ?_, ?_⟩
  · calc pids.count pid = (validOf r pids).count pid := hcount.symm
      _ ≤ ((validOf r pids).map (fun x => vecAt r ((ids r).indexOf x))).count
          (vecAt r ((ids r).indexOf pid)) :=
        le_count_map (fun x => vecAt r ((ids r).indexOf x)) (validOf r pids) pid
  · intro l hl p hp hpeq
    unfold recommend_by_cart at hl
    split at hl
    · have h2 : l = [] := by simpa using hl.symm
      subst h2
      simp at hp
    · have h2 : (cartLoop r (validOf r pids) n
          (rankedArg (simsTo r (cartQuery r (validOf r pids)))) 0).filterMap
          (fun i => r.products[i]?) = l := by
        simpa using hl
      subst h2
      obtain ⟨i, hi, hsome⟩ := List.mem_filterMap.mp hp
      have hex := cartLoop_excl r (validOf r pids) n _ 0 i hi
      obtain ⟨hlt, hpi⟩ := List.getElem?_eq_some.mp hsome
      have hgd : r.products.getD i default = p := by
        rw [getD_in_range _ _ _ hlt, hpi]
      rw [hgd, hpeq] at hex
      apply hex
      refine List.mem_filter.mpr ⟨List.count_pos_iff.mp (by omega), ?_⟩
      simpa using hmem

/-- Witness for `c10_duplicate_cart_ids`: the cart `[1, 1, 2]` holds id 1
twice; the exclusion conjunct is instantiated at the concrete result
`[exP3]`. -/
theorem c10_duplicate_cart_witness :
    (1 : Int) ∈ ids exR ∧ 1 < ([1, 1, 2] : List Int).count 1 ∧
    ((validOf exR [1, 1, 2]).count 1 = ([1, 1, 2] : List Int).count 1 ∧
     ([1, 1, 2] : List Int).count 1 ≤ (cartRows exR (validOf exR [1, 1, 2])).count
       (vecAt exR ((ids exR).indexOf 1)) ∧
     recommend_by_cart exR [1, 1, 2] 2 = Except.ok [exP3] ∧
     exP3.product_id ≠ 1) := by
  refine ⟨by with_unfolding_all decide, by decide, ?_, ?_, by with_unfolding_all decide, ?_⟩
  · exact (c10_duplicate_cart_ids exR [1, 1, 2] 2 1 (by with_unfolding_all decide)
      (by decide)).1
  · exact (c10_duplicate_cart_ids exR [1, 1, 2] 2 1 (by with_unfolding_all decide)
      (by decide)).2.1
  · exact (c10_duplicate_cart_ids exR [1, 1, 2] 2 1 (by with_unfolding_all decide)
      (by decide)).2.2 [exP3] (by with_unfolding_all decide) exP3 (by simp)

end ShopSmart
